import Mathlib

/-!
Verification of the PyORMLite persistence layer.

The repository's `src/model.py` declares three entity types (`Post`, `Tag`,
`User`) as lists of field metadata, and `src/app.py` drives the DAO facade
(`BaseDao`) against them.  The ORM core itself (`ormlite.model` /
`orm.model`: `BaseModel`, the field constructors and `BaseDao`) is not part
of the visible source tree, so those operations are modelled from the
specification's description of their contracts; the declarations in
`model.py` and the call sites in `app.py` are embedded directly.
-/

namespace PyORMLite

/-- The semantic kind of a declared field, per the spec's FieldSpec data
model: Integer, String, Foreign key, or RelationList. -/
inductive FieldKind
  | Integer
  | Str
  | Foreign
  | RelationList
deriving DecidableEq

/-- Metadata describing one column or relation, per the spec's FieldSpec:
name, kind, generated-identifier flag, nullability, optional default value,
uniqueness, lazy-load flag, and (for Foreign/RelationList) the name of the
target entity class. -/
structure FieldSpec where
  name : String
  kind : FieldKind
  generated_id : Bool
  nullable : Bool
  default_value : Option String
  unique : Bool
  lazyload : Bool
  target_entity : Option String
deriving DecidableEq

/-- Modelled from the spec: the `FieldInteger` constructor is not under
`src/`; per the spec an Integer field carries a `generatedId` flag and the
remaining modifiers default off. -/
def FieldInteger (n : String) (generated_id : Bool) : FieldSpec :=
  ⟨n, FieldKind.Integer, generated_id, true, none, false, false, none⟩

/-- Modelled from the spec: the `FieldString` constructor is not under
`src/`; a String field carries nullability, an optional default value and a
uniqueness flag, and is never a generated identifier. -/
def FieldString (n : String) (nullable : Bool) (default_value : Option String)
    (unique : Bool) : FieldSpec :=
  ⟨n, FieldKind.Str, false, nullable, default_value, unique, false, none⟩

/-- Modelled from the spec: the `FieldForeign` constructor is not under
`src/`; a Foreign field names the related entity class. -/
def FieldForeign (n : String) (target : String) : FieldSpec :=
  ⟨n, FieldKind.Foreign, false, true, none, false, false, some target⟩

/-- Modelled from the spec: the `FieldList` constructor is not under
`src/`; a RelationList field names the related entity class and carries a
lazy-load flag; it has no physical column. -/
def FieldList (n : String) (target : String) (lazyload : Bool) : FieldSpec :=
  ⟨n, FieldKind.RelationList, false, true, none, false, lazyload, some target⟩

/-- A named entity type: Python class name, table name, and the ordered
field list, as declared by a `BaseModel` subclass in `src/model.py`. -/
structure ModelDescriptor where
  className : String
  table : String
  fields : List FieldSpec
deriving DecidableEq

/-- The `Post` descriptor declared in `src/model.py`: table "Posts" with a
generated integer id, a unique title, a foreign key to `User`, and an
eager RelationList of `Tag` rows named `tagst`. -/
def Post : ModelDescriptor :=
  ⟨"Post", "Posts",
    [FieldInteger "id" true,
     FieldString "title" true none true,
     FieldForeign "user_id" "User",
     FieldList "tagst" "Tag" false]⟩

/-- The `Tag` descriptor declared in `src/model.py`: table "Tags" with a
generated integer id, a name, and a foreign key to `Post`. -/
def Tag : ModelDescriptor :=
  ⟨"Tag", "Tags",
    [FieldInteger "id" true,
     FieldString "name" true none false,
     FieldForeign "post_id" "Post"]⟩

/-- The `User` descriptor declared in `src/model.py`: table "Users" with a
generated integer id, a non-nullable unique name defaulting to "Hai", and
an eager RelationList of `Post` rows named `posts`. -/
def User : ModelDescriptor :=
  ⟨"User", "Users",
    [FieldInteger "id" true,
     FieldString "name" false (some "Hai") true,
     FieldList "posts" "Post" false]⟩

/-- All ModelDescriptors declared in the repository's `src/model.py`. -/
def registry : List ModelDescriptor := [Post, Tag, User]

/-- The descriptor's primary identity: its first (and, by the invariant,
only) field flagged as a generated identifier. -/
def primaryIdentity (D : ModelDescriptor) : Option FieldSpec :=
  D.fields.find? (fun f => f.generated_id)

/-- A stored or in-memory scalar value: an integer, a string, or NULL. -/
inductive Value
  | int (n : Int)
  | str (s : String)
  | null
deriving DecidableEq

/-- A runtime entity instance (and also a hydrated row): an ordered mapping
from attribute name to scalar value, as Python attribute assignment builds
it in `src/app.py`. -/
abbrev Inst := List (String × Value)

/-- Read an attribute: the value of the first binding with the given name,
if any. -/
def getAttr (inst : Inst) (n : String) : Option Value :=
  (inst.find? (fun p => p.1 == n)).map (fun p => p.2)

/-- Set an attribute: the new binding shadows and removes any older binding
of the same name. -/
def setAttr (inst : Inst) (n : String) (v : Value) : Inst :=
  (n, v) :: inst.filter (fun p => !(p.1 == n))

/-- The scalar fields of a descriptor: every field except RelationList
fields, which per the spec have no physical column. -/
def scalarFields (D : ModelDescriptor) : List FieldSpec :=
  D.fields.filter (fun f => !(f.kind == FieldKind.RelationList))

/-- The value a field contributes to a row when the instance does not set
the attribute: the declared default if any, else NULL. -/
def defaultVal (f : FieldSpec) : Value :=
  match f.default_value with
  | some s => Value.str s
  | none => Value.null

/-- The value stored in a row column for field `f` of instance `inst`. -/
def fieldValue (inst : Inst) (f : FieldSpec) : Value :=
  match getAttr inst f.name with
  | some v => v
  | none => defaultVal f

/-- The row persisted for an instance: one column per scalar FieldSpec of
the descriptor, in declared order; attributes not named by a scalar
FieldSpec are not stored. -/
def mkRow (D : ModelDescriptor) (inst : Inst) : Inst :=
  (scalarFields D).map (fun f => (f.name, fieldValue inst f))

/-- The error taxonomy of the spec (section 7). -/
inductive OrmError
  | SchemaError
  | BuilderError
  | StateError
  | ConflictError
  | NotFoundError
  | BackendError
deriving DecidableEq

/-- The backing table for one descriptor: the stored rows in insertion
order, plus the auto-increment counter for the generated identity. -/
structure Store where
  rows : List Inst
  nextId : Int
deriving DecidableEq

/-- A freshly created table: no rows, auto-increment starting at 1. -/
def emptyStore : Store := ⟨[], 1⟩

/-- The numeric value of a decimal digit character, if it is one. -/
def digitVal (c : Char) : Option Nat :=
  if c = '0' then some 0 else if c = '1' then some 1
  else if c = '2' then some 2 else if c = '3' then some 3
  else if c = '4' then some 4 else if c = '5' then some 5
  else if c = '6' then some 6 else if c = '7' then some 7
  else if c = '8' then some 8 else if c = '9' then some 9
  else none

/-- Parse a digit sequence left to right into a natural number. -/
def digitsAux : List Char → Nat → Option Nat
  | [], acc => some acc
  | c :: cs, acc =>
    match digitVal c with
    | some d => digitsAux cs (acc * 10 + d)
    | none => none

/-- Parse a string as a decimal integer, with an optional leading minus
sign; any non-numeric string parses to nothing. -/
def strToInt (s : String) : Option Int :=
  match s.data with
  | [] => none
  | '-' :: cs =>
    if cs.isEmpty then none
    else (digitsAux cs 0).map (fun n => -(n : Int))
  | cs => (digitsAux cs 0).map (fun n => (n : Int))

/-- Value comparison with integer affinity: an integer column value
compares equal to a string literal that spells the same integer, as the
backing store does for `_eq("id", "1")` in `src/app.py`. -/
def valueEq : Value → Value → Bool
  | Value.int a, Value.int b => a == b
  | Value.str a, Value.str b => a == b
  | Value.int a, Value.str s => strToInt s == some a
  | Value.str s, Value.int b => strToInt s == some b
  | _, _ => false

/-- True when the instance's identity attribute is absent or NULL. -/
def idUnset (inst : Inst) (g : String) : Bool :=
  match getAttr inst g with
  | none => true
  | some Value.null => true
  | some _ => false

/-- True when some stored row collides with the candidate row on a
unique-constrained scalar column. -/
def uniqueConflict (D : ModelDescriptor) (st : Store) (row : Inst) : Bool :=
  (scalarFields D).any (fun f =>
    f.unique && st.rows.any (fun r =>
      match getAttr r f.name, getAttr row f.name with
      | some a, some b => valueEq a b
      | _, _ => false))

/-- True when some stored row already carries the given identity value. -/
def idExists (st : Store) (g : String) (v : Value) : Bool :=
  st.rows.any (fun r =>
    match getAttr r g with
    | some w => valueEq w v
    | none => false)

/-- Modelled from the spec: `BaseDao.save` is not under `src/`.  Per the
spec it inserts a new row when the instance's identity field is unset,
assigning the store-generated identity back onto the instance; a
caller-supplied identity is a strict create that fails with ConflictError
when that identity already exists; a uniqueness violation fails with
ConflictError.  On success it returns the new store and the (identity
written-back) instance. -/
def save (D : ModelDescriptor) (st : Store) (inst : Inst) :
    Except OrmError (Store × Inst) :=
  match primaryIdentity D with
  | none => Except.error OrmError.SchemaError
  | some g =>
    if idUnset inst g.name then
      let inst2 := setAttr inst g.name (Value.int st.nextId)
      let row := mkRow D inst2
      if uniqueConflict D st row then Except.error OrmError.ConflictError
      else Except.ok (⟨st.rows ++ [row], st.nextId + 1⟩, inst2)
    else
      match getAttr inst g.name with
      | some v =>
        if idExists st g.name v then Except.error OrmError.ConflictError
        else
          let row := mkRow D inst
          if uniqueConflict D st row then Except.error OrmError.ConflictError
          else Except.ok (⟨st.rows ++ [row], st.nextId⟩, inst)
      | none => Except.error OrmError.BackendError

/-- Modelled from the spec: `BaseDao.get_by_id` is not under `src/`.  Per
the spec it returns the hydrated instance whose identity column equals the
given id, or fails with NotFoundError. -/
def get_by_id (D : ModelDescriptor) (st : Store) (idv : Int) :
    Except OrmError Inst :=
  match primaryIdentity D with
  | none => Except.error OrmError.SchemaError
  | some g =>
    match st.rows.find? (fun r =>
      match getAttr r g.name with
      | some w => valueEq w (Value.int idv)
      | none => false) with
    | some r => Except.ok r
    | none => Except.error OrmError.NotFoundError

/-- Modelled from the spec: `BaseDao.all` is not under `src/`.  Per the
spec it returns every row of the table, hydrated (scalar part; relation
resolution is handled by the RelationLoader). -/
def allInstances (_D : ModelDescriptor) (st : Store) : List Inst :=
  st.rows

/-- The first user instance built in `src/app.py`: name "Ashwin", plus the
undeclared attributes `user_id` and `subject_id` that the demo also sets. -/
def user1Inst : Inst :=
  [("name", Value.str "Ashwin"), ("user_id", Value.int 100),
   ("subject_id", Value.int 360)]

/-- The second user instance built in `src/app.py`: name "Kukku", plus the
same undeclared attributes. -/
def user2Inst : Inst :=
  [("name", Value.str "Kukku"), ("user_id", Value.int 100),
   ("subject_id", Value.int 360)]

/-- An AND/OR combinator of the predicate tree. -/
inductive Comb
  | cAnd
  | cOr
deriving DecidableEq

/-- A predicate tree: leaves are equality, greater-than or membership
tests on a column, internal nodes are AND/OR combinators. -/
inductive Pred
  | peq (col : String) (v : Value)
  | pgt (col : String) (v : Value)
  | pin (col : String) (vs : List Value)
  | pand (p q : Pred)
  | por (p q : Pred)
deriving DecidableEq

/-- Join two predicate subtrees with the given combinator. -/
def combine (c : Comb) (p q : Pred) : Pred :=
  match c with
  | Comb.cAnd => Pred.pand p q
  | Comb.cOr => Pred.por p q

/-- Modelled from the spec: the fluent PredicateBuilder engine shared by
the query/update/delete builders is not under `src/`.  The builder holds
the tree accumulated so far, an uncommitted combinator awaiting its right
operand, and an error flag for malformed call sequences (a combinator with
fewer than two operands available), which `build` reports as
BuilderError. -/
structure Builder where
  tree : Option Pred
  pending : Option Comb
  err : Bool
deriving DecidableEq

/-- A fresh builder with no predicate appended. -/
def newBuilder : Builder := ⟨none, none, false⟩

/-- Append a leaf predicate: it becomes the whole tree if none exists,
else it is joined to the entire tree so far by the pending combinator
(left-to-right application, no implicit precedence). -/
def addLeaf (b : Builder) (l : Pred) : Builder :=
  match b.tree, b.pending with
  | none, _ => ⟨some l, none, b.err⟩
  | some t, some c => ⟨some (combine c t l), none, b.err⟩
  | some _, none => ⟨b.tree, none, true⟩

/-- Record a combinator awaiting its right operand; with no left operand
available the call sequence is malformed. -/
def addComb (b : Builder) (c : Comb) : Builder :=
  match b.tree, b.pending with
  | some _, none => ⟨b.tree, some c, b.err⟩
  | _, _ => ⟨b.tree, b.pending, true⟩

/-- The builder's `_eq(column, value)` operation. -/
def _eq (b : Builder) (col : String) (v : Value) : Builder :=
  addLeaf b (Pred.peq col v)

/-- The builder's `_gt(column, value)` operation. -/
def _gt (b : Builder) (col : String) (v : Value) : Builder :=
  addLeaf b (Pred.pgt col v)

/-- The builder's `_in(column, values)` operation (literal value list). -/
def _in (b : Builder) (col : String) (vs : List Value) : Builder :=
  addLeaf b (Pred.pin col vs)

/-- The builder's `_and()` operation. -/
def _and (b : Builder) : Builder := addComb b Comb.cAnd

/-- The builder's `_or()` operation. -/
def _or (b : Builder) : Builder := addComb b Comb.cOr

/-- Compile the accumulated predicate tree; a malformed call sequence
fails with BuilderError, and an empty tree (no predicate) compiles to
`none`, meaning the statement is unfiltered. -/
def build (b : Builder) : Except OrmError (Option Pred) :=
  if b.err || b.pending.isSome then Except.error OrmError.BuilderError
  else Except.ok b.tree

/-- Greater-than comparison with integer affinity, mirroring `valueEq`. -/
def valueGt : Value → Value → Bool
  | Value.int a, Value.int b => b < a
  | Value.str a, Value.str b => b < a
  | Value.int a, Value.str s =>
    match s.toInt? with
    | some b => b < a
    | none => false
  | Value.str s, Value.int b =>
    match s.toInt? with
    | some a => b < a
    | none => false
  | _, _ => false

/-- Evaluate a predicate tree on one row. -/
def evalPred : Pred → Inst → Bool
  | Pred.peq col v, r =>
    match getAttr r col with
    | some w => valueEq w v
    | none => false
  | Pred.pgt col v, r =>
    match getAttr r col with
    | some w => valueGt w v
    | none => false
  | Pred.pin col vs, r =>
    match getAttr r col with
    | some w => vs.any (fun v => valueEq w v)
    | none => false
  | Pred.pand p q, r => evalPred p r && evalPred q r
  | Pred.por p q, r => evalPred p r || evalPred q r

/-- Evaluate an optional (possibly absent) predicate on one row; no
predicate matches every row. -/
def matchRow (p : Option Pred) (r : Inst) : Bool :=
  match p with
  | none => true
  | some q => evalPred q r

/-- A compiled Update statement: the column assignments recorded by
`set(...)` plus the compiled predicate tree. -/
structure UpdateStmt where
  assignments : List (String × Value)
  pred : Option Pred
deriving DecidableEq

/-- Overwrite one column of a row in place, keeping column order. -/
def rowSet (r : Inst) (n : String) (v : Value) : Inst :=
  r.map (fun p => if p.1 == n then (p.1, v) else p)

/-- Apply every recorded assignment to a row. -/
def applyAssignments (asg : List (String × Value)) (r : Inst) : Inst :=
  asg.foldl (fun acc p => rowSet acc p.1 p.2) r

/-- Modelled from the spec: `execute_query` on a compiled Update statement
is not under `src/`.  Per the spec it applies the assignments to every
matching row and returns the new store together with the count of affected
rows; no hydration is performed and a non-matching predicate is not an
error. -/
def executeUpdate (u : UpdateStmt) (st : Store) : Store × Nat :=
  (⟨st.rows.map (fun r =>
      if matchRow u.pred r then applyAssignments u.assignments r else r),
    st.nextId⟩,
   (st.rows.filter (fun r => matchRow u.pred r)).length)

/-- Modelled from the spec: `execute_query` on a compiled Delete statement
is not under `src/`.  Per the spec it removes every matching row and
returns the new store together with the count of affected rows; no
hydration is performed. -/
def executeDelete (p : Option Pred) (st : Store) : Store × Nat :=
  (⟨st.rows.filter (fun r => !(matchRow p r)), st.nextId⟩,
   (st.rows.filter (fun r => matchRow p r)).length)

/-- Modelled from the spec: `execute_query` on a compiled Query statement
is not under `src/`.  Per the spec it returns the hydrated rows matching
the predicate. -/
def executeQuery (p : Option Pred) (st : Store) : List Inst :=
  st.rows.filter (fun r => matchRow p r)

/-- One Python heap cell per list object: address to current contents. -/
structure PyHeap where
  cells : List (Nat × List Value)
deriving DecidableEq

/-- Read the list object stored at an address (empty if unallocated). -/
def heapGet (h : PyHeap) (a : Nat) : List Value :=
  ((h.cells.find? (fun p => p.1 == a)).map (fun p => p.2)).getD []

/-- Mutate the list object stored at an address in place. -/
def heapSet (h : PyHeap) (a : Nat) (l : List Value) : PyHeap :=
  ⟨h.cells.map (fun p => if p.1 == a then (a, l) else p)⟩

/-- A Python attribute value: a scalar, or a reference to a heap-allocated
list object. -/
inductive PyVal
  | scalar (v : Value)
  | listRef (a : Nat)
deriving DecidableEq

/-- The heap after `class User` in `src/model.py` is executed: its
class-body `posts: List[Post] = []` allocates one empty list object, at
address 0. -/
def classHeap : PyHeap := ⟨[(0, [])]⟩

/-- The class attribute dictionary of `User` built by the class body of
`src/model.py` lines 29-31: `id = None`, `name = None`, and `posts` bound
to the single class-level list object at address 0. -/
def userClassDict : List (String × PyVal) :=
  [("id", PyVal.scalar Value.null),
   ("name", PyVal.scalar Value.null),
   ("posts", PyVal.listRef 0)]

/-- A Python object: its per-instance attribute dictionary. -/
structure PyObj where
  dict : List (String × PyVal)
deriving DecidableEq

/-- Modelled from the spec: `BaseModel`'s constructor is not under `src/`;
per the spec instances are created by the caller with unset/default
fields, so `User()` creates an object with an empty instance dictionary
and attribute reads fall through to the class attributes. -/
def userNew : PyObj := ⟨[]⟩

/-- Python attribute lookup on a `User` instance: the instance dictionary
first, then the class attribute dictionary. -/
def userGetattr (o : PyObj) (n : String) : Option PyVal :=
  match o.dict.find? (fun p => p.1 == n) with
  | some p => some p.2
  | none => (userClassDict.find? (fun p => p.1 == n)).map (fun p => p.2)

/-- Mutate (append to) the list object an attribute refers to, as
`list.append` does through a reference: the heap cell changes, no
attribute binding changes. -/
def appendViaAttr (h : PyHeap) (o : PyObj) (n : String) (v : Value) :
    PyHeap :=
  match userGetattr o n with
  | some (PyVal.listRef a) => heapSet h a (heapGet h a ++ [v])
  | _ => h

/-- The Update statement of the spec's scenario: assignments
`set(title="X")` and predicate `_eq("id", "1")` (the id bound as the
string literal "1", as `src/app.py` also does). -/
def demoUpdateStmt : UpdateStmt :=
  ⟨[("title", Value.str "X")], some (Pred.peq "id" (Value.str "1"))⟩

/-- A Posts table holding the single row `{id: 1, title: "Y"}`. -/
def demoPostsStore : Store :=
  ⟨[[("id", Value.int 1), ("title", Value.str "Y")]], 2⟩

/-- A Posts table whose only row does not carry id 1. -/
def demoPostsStoreNoMatch : Store :=
  ⟨[[("id", Value.int 2), ("title", Value.str "Y")]], 3⟩

theorem getAttr_setAttr_self (inst : Inst) (n : String) (v : Value) :
    getAttr (setAttr inst n v) n = some v := by
  simp [getAttr, setAttr, List.find?]

theorem find?_eq_of_forall_false {α : Type} (p : α → Bool) (l1 l2 : List α)
    (h : ∀ x ∈ l1, p x = false) : (l1 ++ l2).find? p = l2.find? p := by
  induction l1 with
  | nil => rfl
  | cons a l ih =>
    have ha := h a (List.mem_cons_self a l)
    simp only [List.cons_append, List.find?, ha]
    exact ih (fun x hx => h x (List.mem_cons_of_mem a hx))

theorem getAttr_append_left (l1 l2 : Inst) (n : String)
    (h : ∀ p ∈ l2, ¬ p.1 = n) : getAttr (l1 ++ l2) n = getAttr l1 n := by
  induction l1 with
  | nil =>
    have hnone : l2.find? (fun q : String × Value => q.1 == n) = none := by
      apply List.find?_eq_none.mpr
      intro p hp
      simpa using h p hp
    simp [getAttr, hnone]
  | cons a l ih =>
    by_cases ha : a.1 = n
    · simp [getAttr, List.find?, ha]
    · have ha2 : (a.1 == n) = false := by simpa using ha
      simp only [List.cons_append, getAttr, List.find?, ha2] at ih ⊢
      exact ih

theorem getAttr_map_fields (inst : Inst) (l : List FieldSpec) (f : FieldSpec)
    (hf : f ∈ l) (hnd : (l.map FieldSpec.name).Nodup) :
    getAttr (l.map (fun x => (x.name, fieldValue inst x))) f.name =
      some (fieldValue inst f) := by
  induction l with
  | nil => cases hf
  | cons a l ih =>
    rcases List.mem_cons.mp hf with rfl | hf2
    · simp [getAttr, List.find?]
    · have hmem : f.name ∈ l.map FieldSpec.name := List.mem_map_of_mem _ hf2
      have hne : ¬ a.name = f.name := by
        intro he
        exact (List.nodup_cons.mp hnd).1 (he ▸ hmem)
      have hne2 : (a.name == f.name) = false := by simpa using hne
      simp only [List.map_cons, getAttr, List.find?, hne2]
      exact ih hf2 (List.nodup_cons.mp hnd).2

theorem getAttr_mkRow (D : ModelDescriptor) (inst : Inst) (f : FieldSpec)
    (hf : f ∈ scalarFields D)
    (hnd : ((scalarFields D).map FieldSpec.name).Nodup) :
    getAttr (mkRow D inst) f.name = some (fieldValue inst f) :=
  getAttr_map_fields inst (scalarFields D) f hf hnd

theorem save_ok_generated (D : ModelDescriptor) (st st2 : Store)
    (inst inst2 : Inst) (g : FieldSpec)
    (hg : primaryIdentity D = some g)
    (hunset : idUnset inst g.name = true)
    (hsv : save D st inst = Except.ok (st2, inst2)) :
    inst2 = setAttr inst g.name (Value.int st.nextId) ∧
    st2 = ⟨st.rows ++ [mkRow D inst2], st.nextId + 1⟩ := by
  rw [save, hg] at hsv
  simp only [hunset, if_true] at hsv
  by_cases hc :
      uniqueConflict D st
        (mkRow D (setAttr inst g.name (Value.int st.nextId))) = true
  · rw [if_pos hc] at hsv
    cases hsv
  · rw [if_neg hc] at hsv
    obtain ⟨hsts, hinsts⟩ := Prod.mk.inj (Except.ok.inj hsv)
    subst hinsts
    subst hsts
    exact ⟨rfl, rfl⟩

/-- Claim C1: every ModelDescriptor declared in the repository (Post, Tag,
User in model.py) has exactly one FieldSpec with `generated_id = true`,
that field is of Integer kind, and it is the descriptor's primary
identity. -/
theorem generated_id_unique_integer_identity :
    ∀ D ∈ registry,
      (D.fields.filter (fun f => f.generated_id)).length = 1 ∧
      ∀ f ∈ D.fields, f.generated_id = true →
        f.kind = FieldKind.Integer ∧ primaryIdentity D = some f := by
  decide

/-- Witness for C1 at the `User` descriptor: its only generated-id field is
the Integer field named "id", which is its primary identity. -/
theorem generated_id_unique_integer_identity_witness :
    (User.fields.filter (fun f => f.generated_id)).length = 1 ∧
      (FieldInteger "id" true).kind = FieldKind.Integer ∧
      primaryIdentity User = some (FieldInteger "id" true) := by
  have h := generated_id_unique_integer_identity User (by decide)
  exact ⟨h.1, (h.2 (FieldInteger "id" true) (by decide) (by decide)).1,
    (h.2 (FieldInteger "id" true) (by decide) (by decide)).2⟩

/-- Claim C2: in every declared descriptor the field names are unique, and
for every RelationList field on a descriptor `D` targeting descriptor `T`
(User.posts targeting Post, Post.tagst targeting Tag), `T` declares exactly
one Foreign field referencing back to `D` (Post.user_id referencing User,
Tag.post_id referencing Post), so both sides agree on the join column. -/
theorem relation_pairing_unique_foreign :
    ∀ D ∈ registry,
      (D.fields.map FieldSpec.name).Nodup ∧
      ∀ f ∈ D.fields, f.kind = FieldKind.RelationList →
        ∀ T ∈ registry, f.target_entity = some T.className →
          (T.fields.filter (fun g =>
            g.kind == FieldKind.Foreign &&
              g.target_entity == some D.className)).length = 1 := by
  decide

/-- Witness for C2 at `User` and its RelationList field `posts` targeting
`Post`: `Post` declares exactly one Foreign field referencing `User`. -/
theorem relation_pairing_unique_foreign_witness :
    (User.fields.map FieldSpec.name).Nodup ∧
      (Post.fields.filter (fun g =>
        g.kind == FieldKind.Foreign &&
          g.target_entity == some User.className)).length = 1 := by
  have h := relation_pairing_unique_foreign User (by decide)
  exact ⟨h.1, h.2 (FieldList "posts" "Post" false) (by decide) (by decide)
    Post (by decide) (by decide)⟩

/-- Claim C3: for every descriptor and every instance, `save` followed by
`get_by_id` with the identity returned by that save yields an instance
whose scalar fields equal the saved values exactly; in the demo, after
user1 with name "Ashwin" is saved first, `get_by_id(User, 1)` returns an
instance whose name is "Ashwin". -/
theorem save_get_by_id_roundtrip
    (D : ModelDescriptor) (st st2 : Store) (inst inst2 : Inst) (g : FieldSpec)
    (hg : primaryIdentity D = some g)
    (hgs : g ∈ scalarFields D)
    (hnd : ((scalarFields D).map FieldSpec.name).Nodup)
    (hWF : ∀ r ∈ st.rows, ∃ n : Int,
      getAttr r g.name = some (Value.int n) ∧ n < st.nextId)
    (hunset : idUnset inst g.name = true)
    (hsv : save D st inst = Except.ok (st2, inst2)) :
    getAttr inst2 g.name = some (Value.int st.nextId) ∧
    get_by_id D st2 st.nextId = Except.ok (mkRow D inst2) ∧
    (∀ f ∈ scalarFields D,
      getAttr (mkRow D inst2) f.name = some (fieldValue inst2 f)) ∧
    save User emptyStore user1Inst =
      Except.ok (⟨[[("id", Value.int 1), ("name", Value.str "Ashwin")]], 2⟩,
        setAttr user1Inst "id" (Value.int 1)) ∧
    save User ⟨[[("id", Value.int 1), ("name", Value.str "Ashwin")]], 2⟩
        user2Inst =
      Except.ok (⟨[[("id", Value.int 1), ("name", Value.str "Ashwin")],
                   [("id", Value.int 2), ("name", Value.str "Kukku")]], 3⟩,
        setAttr user2Inst "id" (Value.int 2)) ∧
    get_by_id User ⟨[[("id", Value.int 1), ("name", Value.str "Ashwin")],
                     [("id", Value.int 2), ("name", Value.str "Kukku")]], 3⟩
        1 =
      Except.ok [("id", Value.int 1), ("name", Value.str "Ashwin")] ∧
    getAttr [("id", Value.int 1), ("name", Value.str "Ashwin")] "name" =
      some (Value.str "Ashwin") := by
  obtain ⟨hi2, hst2⟩ := save_ok_generated D st st2 inst inst2 g hg hunset hsv
  have hid2 : getAttr inst2 g.name = some (Value.int st.nextId) := by
    rw [hi2]
    exact getAttr_setAttr_self _ _ _
  have hrowid : getAttr (mkRow D inst2) g.name =
      some (Value.int st.nextId) := by
    rw [getAttr_mkRow D inst2 g hgs hnd]
    simp [fieldValue, hid2]
  refine ⟨hid2, ?_, fun f hf => getAttr_mkRow D inst2 f hf hnd,
    rfl, rfl, rfl, rfl⟩
  have hfind : (st.rows ++ [mkRow D inst2]).find?
      (fun r => match getAttr r g.name with
        | some w => valueEq w (Value.int st.nextId)
        | none => false) = some (mkRow D inst2) := by
    rw [find?_eq_of_forall_false _ st.rows [mkRow D inst2] ?_]
    · simp [List.find?, hrowid, valueEq]
    · intro r hr
      obtain ⟨n, hn, hlt⟩ := hWF r hr
      simp only [hn, valueEq]
      simp only [beq_eq_false_iff_ne, ne_eq]
      omega
  rw [hst2, get_by_id, hg]
  simp [hfind]

/-- Witness for C3: saving the demo's first user into the fresh Users
table assigns id 1, and `get_by_id` at id 1 returns exactly the stored
row. -/
theorem save_get_by_id_roundtrip_witness :
    get_by_id User ⟨[[("id", Value.int 1), ("name", Value.str "Ashwin")]], 2⟩
        1 =
      Except.ok (mkRow User (setAttr user1Inst "id" (Value.int 1))) :=
  (save_get_by_id_roundtrip User emptyStore
      ⟨[[("id", Value.int 1), ("name", Value.str "Ashwin")]], 2⟩
      user1Inst (setAttr user1Inst "id" (Value.int 1))
      (FieldInteger "id" true) rfl (by decide) (by decide)
      (fun r hr => absurd hr (List.not_mem_nil r))
      (by decide) rfl).2.1

/-- Claim C4: for every descriptor with a generated-id field, two
consecutive successful `save` calls assign distinct, monotonically
non-decreasing identities, and each store-generated identity is written
back onto the saved instance (as `src/app.py` relies on when it reads
`user1.id` after the save). -/
theorem save_ids_distinct_monotone_writeback
    (D : ModelDescriptor) (st st1 st2 : Store) (i1 i2 j1 j2 : Inst)
    (g : FieldSpec)
    (hg : primaryIdentity D = some g)
    (hun1 : idUnset i1 g.name = true)
    (hun2 : idUnset i2 g.name = true)
    (h1 : save D st i1 = Except.ok (st1, j1))
    (h2 : save D st1 i2 = Except.ok (st2, j2)) :
    getAttr j1 g.name = some (Value.int st.nextId) ∧
    getAttr j2 g.name = some (Value.int st1.nextId) ∧
    st.nextId ≠ st1.nextId ∧
    st.nextId ≤ st1.nextId := by
  obtain ⟨hi1, hst1⟩ := save_ok_generated D st st1 i1 j1 g hg hun1 h1
  obtain ⟨hi2, hst2⟩ := save_ok_generated D st1 st2 i2 j2 g hg hun2 h2
  have hnext : st1.nextId = st.nextId + 1 := by rw [hst1]
  refine ⟨?_, ?_, ?_, ?_⟩
  · rw [hi1]
    exact getAttr_setAttr_self _ _ _
  · rw [hi2]
    exact getAttr_setAttr_self _ _ _
  · omega
  · omega

/-- Witness for C4: saving the demo's two users consecutively into a fresh
Users table writes back ids 1 then 2, which are distinct and increasing. -/
theorem save_ids_distinct_monotone_writeback_witness :
    getAttr (setAttr user1Inst "id" (Value.int 1)) "id" =
      some (Value.int 1) ∧
    getAttr (setAttr user2Inst "id" (Value.int 2)) "id" =
      some (Value.int 2) ∧
    (1 : Int) ≠ 2 ∧ (1 : Int) ≤ 2 :=
  save_ids_distinct_monotone_writeback User emptyStore
    ⟨[[("id", Value.int 1), ("name", Value.str "Ashwin")]], 2⟩
    ⟨[[("id", Value.int 1), ("name", Value.str "Ashwin")],
      [("id", Value.int 2), ("name", Value.str "Kukku")]], 3⟩
    user1Inst user2Inst
    (setAttr user1Inst "id" (Value.int 1))
    (setAttr user2Inst "id" (Value.int 2))
    (FieldInteger "id" true) rfl (by decide) (by decide) rfl rfl

/-- Claim C5: against the Users table (generated id, unique name), saving a
first instance named "A" assigns id 1; saving a second instance with the
same name fails with ConflictError; saving a third instance named "B"
assigns id 2; and `all` then returns exactly the two stored instances
(1,"A") and (2,"B"). -/
theorem unique_name_conflict_scenario :
    save User emptyStore [("name", Value.str "A")] =
      Except.ok (⟨[[("id", Value.int 1), ("name", Value.str "A")]], 2⟩,
        [("id", Value.int 1), ("name", Value.str "A")]) ∧
    save User ⟨[[("id", Value.int 1), ("name", Value.str "A")]], 2⟩
        [("name", Value.str "A")] =
      Except.error OrmError.ConflictError ∧
    save User ⟨[[("id", Value.int 1), ("name", Value.str "A")]], 2⟩
        [("name", Value.str "B")] =
      Except.ok
        (⟨[[("id", Value.int 1), ("name", Value.str "A")],
           [("id", Value.int 2), ("name", Value.str "B")]], 3⟩,
         [("id", Value.int 2), ("name", Value.str "B")]) ∧
    allInstances User
        ⟨[[("id", Value.int 1), ("name", Value.str "A")],
          [("id", Value.int 2), ("name", Value.str "B")]], 3⟩ =
      [[("id", Value.int 1), ("name", Value.str "A")],
       [("id", Value.int 2), ("name", Value.str "B")]] :=
  ⟨rfl, rfl, rfl, rfl⟩

/-- Claim C9: `save` persists only the attributes named by the
descriptor's scalar FieldSpecs, in declared order; instance attributes not
declared in the descriptor do not appear in the stored row and do not make
`save` fail — in particular the demo's User instance carrying the
undeclared `user_id` and `subject_id` attributes is saved successfully
with a row holding only `id` and `name`. -/
theorem save_persists_only_declared_scalars
    (D : ModelDescriptor) (inst extras : Inst)
    (hex : ∀ p ∈ extras, ¬ p.1 ∈ (scalarFields D).map FieldSpec.name) :
    (mkRow D inst).map Prod.fst = (scalarFields D).map FieldSpec.name ∧
    mkRow D (inst ++ extras) = mkRow D inst ∧
    save User emptyStore user1Inst =
      Except.ok (⟨[[("id", Value.int 1), ("name", Value.str "Ashwin")]], 2⟩,
        setAttr user1Inst "id" (Value.int 1)) := by
  refine ⟨?_, ?_, rfl⟩
  · simp [mkRow, List.map_map]
  · unfold mkRow
    apply List.map_congr_left
    intro f hf
    have hne : ∀ p ∈ extras, ¬ p.1 = f.name := fun p hp he =>
      hex p hp (he ▸ List.mem_map_of_mem FieldSpec.name hf)
    simp [fieldValue, getAttr_append_left inst extras f.name hne]

/-- Witness for C9: appending the undeclared attribute `subject_id` to an
instance leaves the persisted User row unchanged. -/
theorem save_persists_only_declared_scalars_witness :
    mkRow User ([("name", Value.str "Ashwin")] ++
        [("subject_id", Value.int 360)]) =
      mkRow User [("name", Value.str "Ashwin")] :=
  (save_persists_only_declared_scalars User
    [("name", Value.str "Ashwin")] [("subject_id", Value.int 360)]
    (by decide)).2.1

theorem length_filter_not_add {α : Type} (p : α → Bool) (l : List α) :
    (l.filter (fun x => !(p x))).length + (l.filter p).length = l.length := by
  induction l with
  | nil => rfl
  | cons a l ih =>
    by_cases h : p a = true <;>
      simp [List.filter, h, Nat.add_comm, Nat.add_assoc, ← ih] <;> omega

theorem evalPred_pin_pair (col : String) (v1 v2 : Value) (r : Inst) :
    evalPred (Pred.pin col [v1, v2]) r =
      (evalPred (Pred.peq col v1) r || evalPred (Pred.peq col v2) r) := by
  simp only [evalPred]
  cases getAttr r col with
  | none => rfl
  | some w => simp [List.any]

/-- Claim C6: the builder's `_and()`/`_or()` combinators apply
left-to-right in call order with no implicit precedence and no grouping
operation: for every chain of appended leaf predicates l1, l2, l3 joined
by combinators c1 then c2, the compiled predicate is ((l1 c1 l2) c2 l3);
in particular `_gt(a,1)._and()._eq(b,2)._or()._eq(c,3)` compiles to
((a>1 AND b=2) OR c=3). -/
theorem builder_left_to_right_no_precedence :
    (∀ (l1 l2 l3 : Pred) (c1 c2 : Comb),
      build (addLeaf (addComb (addLeaf (addComb (addLeaf newBuilder l1) c1)
          l2) c2) l3) =
        Except.ok (some (combine c2 (combine c1 l1 l2) l3))) ∧
    ∀ (a b c : String),
      build (_eq (_or (_eq (_and (_gt newBuilder a (Value.int 1))) b
          (Value.int 2))) c (Value.int 3)) =
        Except.ok (some (Pred.por
          (Pred.pand (Pred.pgt a (Value.int 1)) (Pred.peq b (Value.int 2)))
          (Pred.peq c (Value.int 3)))) :=
  ⟨fun _ _ _ _ _ => rfl, fun _ _ _ => rfl⟩

/-- Claim C7: executing a compiled Update or Delete statement returns the
number of affected rows (and performs no hydration: the result is a row
count, never hydrated instances); the scenario Update `set(title="X")`
`_eq("id","1")` against a table containing `{id:1, title:"Y"}` changes
that row's title to "X" and returns affected-count 1, and against a table
where no row matches returns affected-count 0 without an error. -/
theorem execute_update_delete_affected_count
    (u : UpdateStmt) (p : Option Pred) (st : Store) :
    (executeUpdate u st).2 =
      (st.rows.filter (fun r => matchRow u.pred r)).length ∧
    (executeUpdate u st).1.rows.length = st.rows.length ∧
    (executeDelete p st).2 =
      (st.rows.filter (fun r => matchRow p r)).length ∧
    (executeDelete p st).1.rows.length + (executeDelete p st).2 =
      st.rows.length ∧
    executeUpdate demoUpdateStmt demoPostsStore =
      (⟨[[("id", Value.int 1), ("title", Value.str "X")]], 2⟩, 1) ∧
    executeUpdate demoUpdateStmt demoPostsStoreNoMatch =
      (demoPostsStoreNoMatch, 0) := by
  refine ⟨rfl, ?_, rfl, ?_, by decide, by decide⟩
  · simp [executeUpdate]
  · simpa [executeDelete] using
      length_filter_not_add (fun r => matchRow p r) st.rows

/-- Claim C8: for every column and literal values v1, v2, executing a
Query built with `_in(col, [v1, v2])` returns the union of the rows
matching either value, with no duplicate rows in the result. -/
theorem in_predicate_union_nodup
    (col : String) (v1 v2 : Value) (st : Store)
    (h : st.rows.Nodup) :
    (∀ r, r ∈ executeQuery (some (Pred.pin col [v1, v2])) st ↔
      (r ∈ executeQuery (some (Pred.peq col v1)) st ∨
       r ∈ executeQuery (some (Pred.peq col v2)) st)) ∧
    (executeQuery (some (Pred.pin col [v1, v2])) st).Nodup := by
  constructor
  · intro r
    simp only [executeQuery, List.mem_filter, matchRow, evalPred_pin_pair,
      Bool.or_eq_true]
    exact and_or_left
  · exact h.filter _

/-- Witness for C8: on the demo Users table the `_in` query over both
names returns a duplicate-free result. -/
theorem in_predicate_union_nodup_witness :
    (executeQuery (some (Pred.pin "name"
        [Value.str "Ashwin", Value.str "Kukku"]))
      ⟨[[("id", Value.int 1), ("name", Value.str "Ashwin")],
        [("id", Value.int 2), ("name", Value.str "Kukku")]], 3⟩).Nodup :=
  (in_predicate_union_nodup "name" (Value.str "Ashwin")
    (Value.str "Kukku")
    ⟨[[("id", Value.int 1), ("name", Value.str "Ashwin")],
      [("id", Value.int 2), ("name", Value.str "Kukku")]], 3⟩
    (by decide)).2

/-- Claim C10: a fresh `User()` starts with `id = None`, `name = None`,
and `posts` the empty list; `posts` initially refers to the single
class-level list object (address 0), shared by every un-hydrated
instance, so a mutation of that list made through one fresh instance is
visible through every other fresh instance. -/
theorem user_posts_class_attribute_shared :
    userGetattr userNew "id" = some (PyVal.scalar Value.null) ∧
    userGetattr userNew "name" = some (PyVal.scalar Value.null) ∧
    userGetattr userNew "posts" = some (PyVal.listRef 0) ∧
    heapGet classHeap 0 = [] ∧
    heapGet (appendViaAttr classHeap userNew "posts" (Value.int 7)) 0 =
      [Value.int 7] ∧
    ∀ u : PyObj, u.dict = [] →
      userGetattr u "posts" = some (PyVal.listRef 0) := by
  refine ⟨rfl, rfl, rfl, rfl, rfl, ?_⟩
  intro u hu
  simp [userGetattr, hu, userClassDict, List.find?]

/-- Witness for C10: a second fresh instance resolves `posts` to the same
class-level list object at address 0. -/
theorem user_posts_class_attribute_shared_witness :
    userGetattr ⟨[]⟩ "posts" = some (PyVal.listRef 0) :=
  user_posts_class_attribute_shared.2.2.2.2.2 ⟨[]⟩ rfl

end PyORMLite
